import Mathlib

/-
Verification of the cubetime run-comparison and live-timing core.

The Python modules cubetime/core/CompareTime.py, cubetime/core/TimeSet.py and
cubetime/core/Timer.py are shallowly embedded below.  IEEE floating point values
are modelled as rationals extended with a missing value: the type F below is
Option Rat, where none stands for NaN.  All arithmetic used by the code on such
values (subtraction, addition, division, summation, cumulative summation) either
produces a rational or propagates NaN, which matches numpy semantics exactly on
the inputs the program manipulates (no infinities arise, and rounding is the
only divergence, immaterial to the branch structure proved here; claims about
exact float identities are read over exact arithmetic).
-/

/-- Model of a numpy float64 value: some q is an ordinary (exact) number, none is NaN. -/
abbrev F : Type := Option ℚ

/-- Numpy subtraction on possibly-NaN floats: NaN propagates. -/
def fsub (a b : F) : F :=
  match a, b with
  | some x, some y => some (x - y)
  | _, _ => none

/-- Numpy addition on possibly-NaN floats: NaN propagates. -/
def fadd (a b : F) : F :=
  match a, b with
  | some x, some y => some (x + y)
  | _, _ => none

/-- Numpy division on possibly-NaN floats: NaN propagates (divisors used by the
code are positive segment counts, so the zero-divisor case never arises). -/
def fdiv (a b : F) : F :=
  match a, b with
  | some x, some y => some (x / y)
  | _, _ => none

/-- IEEE strict less-than: any comparison involving NaN is false. -/
def flt (a b : F) : Bool :=
  match a, b with
  | some x, some y => decide (x < y)
  | _, _ => false

/-- IEEE equality test: any comparison involving NaN is false (NaN is not equal
to anything, itself included).  This is the semantics of elementwise == used by
numpy on float and object arrays. -/
def feq (a b : F) : Bool :=
  match a, b with
  | some x, some y => decide (x = y)
  | _, _ => false

/-- np.sum of a list of possibly-NaN floats: folds addition over the list
starting from zero, so a single NaN makes the whole sum NaN. -/
def fsum (xs : List F) : F := xs.foldl fadd (some 0)

/-- Helper for np.cumsum: running sums starting from a given accumulator. -/
def cumsumFrom (acc : F) : List F → List F
  | [] => []
  | x :: rest => (fadd acc x) :: cumsumFrom (fadd acc x) rest

/-- np.cumsum of a row of possibly-NaN floats: once a NaN is met, every later
entry of the running sum is NaN. -/
def np_cumsum (xs : List F) : List F := cumsumFrom (some 0) xs

/- ------------------------------------------------------------------ -/
/- Embedding of cubetime/core/CompareTime.py                          -/
/- ------------------------------------------------------------------ -/

/-- CompareResultDiscrete from CompareTime.py lines 12-17: discrete outcome of a
comparison. -/
inductive CompareResultDiscrete : Type
  | WORSE : CompareResultDiscrete
  | EQUAL : CompareResultDiscrete
  | BETTER : CompareResultDiscrete
deriving DecidableEq, Repr

/-- CompareResult from CompareTime.py lines 20-32: discrete classification plus
the signed numerical difference (current minus comparison), NaN when no
numerical comparison is available. -/
structure CompareResult : Type where
  discrete : CompareResultDiscrete
  continuous : F
deriving DecidableEq, Repr

/-- Terminal colors used by comparison_color; the source returns the strings
red, yellow, green, white, modelled as an enumeration.  yellow is the
distinguished gold/record color. -/
inductive Color : Type
  | red : Color
  | yellow : Color
  | green : Color
  | white : Color
deriving DecidableEq, Repr

/-- comparison_color from CompareTime.py lines 48-66: yellow when the best
comparison says BETTER, else green/red/white from the current comparison. -/
def comparison_color (current best : CompareResult) : Color :=
  if best.discrete = CompareResultDiscrete.BETTER then Color.yellow
  else if current.discrete = CompareResultDiscrete.BETTER then Color.green
  else if current.discrete = CompareResultDiscrete.WORSE then Color.red
  else Color.white

/-- CompareTime from CompareTime.py lines 69-79: an optional baseline vector of
segment times (none models a null baseline). -/
structure CompareTime : Type where
  data : Option (List F)
deriving DecidableEq, Repr

/-- CompareTime.compare from CompareTime.py lines 106-130.  The index access
data[segment_index] is modelled with getD; every theorem below that touches it
carries an in-range hypothesis, matching the callers, since the Python code
would raise on an out-of-range index. -/
def CompareTime.compare
    (c : CompareTime) (segment_index : ℕ) (main_time : F) (min_better : Bool) :
    CompareResult :=
  match c.data with
  | none => ⟨CompareResultDiscrete.EQUAL, none⟩
  | some d =>
    let difference : F := fsub main_time (d.getD segment_index none)
    match difference with
    | none => ⟨CompareResultDiscrete.EQUAL, none⟩
    | some diff =>
      if diff = 0 then ⟨CompareResultDiscrete.EQUAL, some diff⟩
      else if (decide (diff < 0)) == min_better then
        ⟨CompareResultDiscrete.BETTER, some diff⟩
      else ⟨CompareResultDiscrete.WORSE, some diff⟩

/- ------------------------------------------------------------------ -/
/- Spec-side definitions for the comparator claims                    -/
/- ------------------------------------------------------------------ -/

/-- Spec-side color rule, written from the words of claim C1: if the best-ever
classification is BETTER the distinguished gold color is used regardless of the
live classification, otherwise live BETTER gives green, WORSE gives red and
EQUAL gives white. -/
def colorSpecC1 (current best : CompareResult) : Color :=
  if best.discrete = CompareResultDiscrete.BETTER then Color.yellow
  else
    match current.discrete with
    | CompareResultDiscrete.BETTER => Color.green
    | CompareResultDiscrete.WORSE => Color.red
    | CompareResultDiscrete.EQUAL => Color.white

/-- Spec-side classification, written from the words of claim C2 exactly as
stated: EQUAL with NaN delta when the baseline is null, EQUAL with NaN delta
when the live value is NaN, and otherwise delta is formed and the sign rules are
applied, with IEEE semantics for the comparisons of a possibly-NaN delta
(a comparison involving NaN is false). -/
def compareClaimC2
    (data : Option (List F)) (segment_index : ℕ) (value : F) (min_better : Bool) :
    CompareResult :=
  match data with
  | none => ⟨CompareResultDiscrete.EQUAL, none⟩
  | some d =>
    if value.isNone then ⟨CompareResultDiscrete.EQUAL, none⟩
    else
      let delta : F := fsub value (d.getD segment_index none)
      if feq delta (some 0) then ⟨CompareResultDiscrete.EQUAL, delta⟩
      else if flt delta (some 0) == min_better then
        ⟨CompareResultDiscrete.BETTER, delta⟩
      else ⟨CompareResultDiscrete.WORSE, delta⟩

/-- Classification of one segment value against one baseline entry, written
from the words of claim C2 as amended: the only change is that a missing
baseline entry (hence a NaN delta) also yields EQUAL with NaN delta. -/
def classifyAmendedC2 (base value : F) (min_better : Bool) : CompareResult :=
  match value, base with
  | none, _ => ⟨CompareResultDiscrete.EQUAL, none⟩
  | some _, none => ⟨CompareResultDiscrete.EQUAL, none⟩
  | some x, some b =>
    if x - b = 0 then ⟨CompareResultDiscrete.EQUAL, some (x - b)⟩
    else if (decide (x - b < 0)) == min_better then
      ⟨CompareResultDiscrete.BETTER, some (x - b)⟩
    else ⟨CompareResultDiscrete.WORSE, some (x - b)⟩

/- ------------------------------------------------------------------ -/
/- Embedding of cubetime/core/TimeSet.py                              -/
/- ------------------------------------------------------------------ -/

/-- TimeSet from TimeSet.py lines 27-43: the historical table of runs of one
task.  The date column holds opaque timestamps, modelled as naturals; each run
is a row of standalone segment times; min_best records whether smaller times are
better.  Segment names are opaque unique labels, modelled as naturals. -/
structure TimeSet : Type where
  segments : List ℕ
  dates : List ℕ
  runs : List (List F)
  min_best : Bool
deriving DecidableEq, Repr

/-- Well-formedness invariant of the pandas frame held by a TimeSet: at least
one segment column, one date per row, and every row has one value per segment. -/
def TimeSet.WF (s : TimeSet) : Prop :=
  s.segments ≠ [] ∧ s.dates.length = s.runs.length ∧
    ∀ r ∈ s.runs, r.length = s.segments.length

instance (s : TimeSet) : Decidable s.WF := by
  unfold TimeSet.WF; infer_instance

/-- Final cumulative time of one run: the last entry of np.cumsum of its row
(NaN as soon as any segment of the run is missing).  This is the value found in
the last segment column of TimeSet.cumulative_times. -/
def finalTime (r : List F) : F := (np_cumsum r).getLastD none

/-- One step of the numpy argmin scan over floats: true when the new value
displaces the current best.  A NaN displaces any ordinary value and nothing
displaces a NaN, which is exactly the update condition not (v >= mp) of the
numpy reduction loop; hence np.argmin returns the index of the first NaN when
one is present. -/
def argminStep (best new : F) : Bool :=
  match best, new with
  | none, _ => false
  | some _, none => true
  | some b, some v => decide (v < b)

/-- One step of the numpy argmax scan over floats, symmetric to argminStep. -/
def argmaxStep (best new : F) : Bool :=
  match best, new with
  | none, _ => false
  | some _, none => true
  | some b, some v => decide (b < v)

/-- Generic index scan shared by the argmin and argmax embeddings. -/
def scanExtremeIdx (step : F → F → Bool) : F → ℕ → ℕ → List F → ℕ
  | _, bestIdx, _, [] => bestIdx
  | best, bestIdx, i, x :: rest =>
    if step best x then scanExtremeIdx step x i (i + 1) rest
    else scanExtremeIdx step best bestIdx (i + 1) rest

/-- np.argmin over a float vector: index of the first NaN if any, otherwise the
index of the first minimum.  numpy raises on an empty vector; the embedding
returns 0 there and every use below carries a nonemptiness hypothesis. -/
def np_argmin (xs : List F) : ℕ :=
  match xs with
  | [] => 0
  | x :: rest => scanExtremeIdx argminStep x 0 1 rest

/-- np.argmax over a float vector, symmetric to np_argmin. -/
def np_argmax (xs : List F) : ℕ :=
  match xs with
  | [] => 0
  | x :: rest => scanExtremeIdx argmaxStep x 0 1 rest

/-- TimeSet.extreme_run_index from TimeSet.py lines 263-275: argmin (or argmax,
by the parity of min_best and best) of the final cumulative time column. -/
def TimeSet.extreme_run_index (s : TimeSet) (best : Bool) : ℕ :=
  let final_times : List F := s.runs.map finalTime
  if s.min_best == best then np_argmin final_times else np_argmax final_times

/-- TimeSet.best_run_index from TimeSet.py lines 277-285. -/
def TimeSet.best_run_index (s : TimeSet) : ℕ := s.extreme_run_index true

/-- The standalone row of the run selected by best_run_index (self.values at
that row in the source). -/
def TimeSet.best_run_times (s : TimeSet) : List F :=
  s.runs.getD s.best_run_index []

/-- One step of a skipna columnwise min or max reduction: missing values are
ignored, as pandas does with skipna=True. -/
def extStep (useMin : Bool) (acc x : F) : F :=
  match acc, x with
  | none, v => v
  | some a, none => some a
  | some a, some b => some (if useMin then min a b else max a b)

/-- Columnwise skipna extremum: NaN only when the whole column is missing. -/
def colExtreme (useMin : Bool) (xs : List F) : F := xs.foldl (extStep useMin) none

/-- Columnwise skipna mean, as pandas mean with skipna=True: the mean of the
present values, NaN when the whole column is missing. -/
def colMean (xs : List F) : F :=
  let vs : List ℚ := xs.filterMap id
  match vs with
  | [] => none
  | _ => some (vs.sum / vs.length)

/-- Column j of the run table (the getD default is never reached on well-formed
stores). -/
def TimeSet.column (s : TimeSet) (j : ℕ) : List F :=
  s.runs.map (fun r => r.getD j none)

/-- TimeSet.best_times from TimeSet.py lines 317-325 via _get_extreme_times
(lines 225-239): per-segment best standalone value, min when min_best else max,
skipping missing values. -/
def TimeSet.best_times (s : TimeSet) : List F :=
  (List.range s.segments.length).map (fun j => colExtreme s.min_best (s.column j))

/-- TimeSet.worst_times from TimeSet.py lines 337-345: per-segment worst
standalone value (the opposite extremum). -/
def TimeSet.worst_times (s : TimeSet) : List F :=
  (List.range s.segments.length).map (fun j => colExtreme (!s.min_best) (s.column j))

/-- TimeSet.average_times from TimeSet.py lines 327-335: per-segment skipna mean
of standalone values. -/
def TimeSet.average_times (s : TimeSet) : List F :=
  (List.range s.segments.length).map (fun j => colMean (s.column j))

/-- TimeSet.total_time_spent from TimeSet.py lines 721-729: np.sum over the
whole run table, so any missing entry makes the result NaN. -/
def TimeSet.total_time_spent (s : TimeSet) : F := fsum s.runs.flatten

/-- TimeSet._make_compare_times_from_segment_times from TimeSet.py lines
369-384: pairs a standalone baseline with its np.cumsum cumulative baseline. -/
def TimeSet.make_compare_times_from_segment_times
    (times : List F) : CompareTime × CompareTime :=
  (⟨some times⟩, ⟨some (np_cumsum times)⟩)

/-- TimeSet._make_compare_times_from_run from TimeSet.py lines 386-401. -/
def TimeSet.make_compare_times_from_run (s : TimeSet) (which : ℕ) :
    CompareTime × CompareTime :=
  TimeSet.make_compare_times_from_segment_times (s.runs.getD which [])

/-- TimeSet._make_balanced_best_compare_times from TimeSet.py lines 403-418:
split the total time save that the best run leaves on the table into an equal
amount per segment and add it onto the per-segment best times.  There is no
raise path in the source: all the arithmetic silently propagates NaN. -/
def TimeSet.make_balanced_best_compare_times (s : TimeSet) :
    CompareTime × CompareTime :=
  let best_run_times : List F := s.best_run_times
  let best_segment_times : List F := s.best_times
  let time_saves : List F := List.zipWith fsub best_run_times best_segment_times
  let balanced_time_save_per_segment : F :=
    fdiv (fsum time_saves) (some (s.segments.length : ℚ))
  let balanced_times : List F :=
    best_segment_times.map (fun b => fadd b balanced_time_save_per_segment)
  TimeSet.make_compare_times_from_segment_times balanced_times

/-- CompareStyle from cubetime/core/CompareStyle.py. -/
inductive CompareStyle : Type
  | NONE : CompareStyle
  | BEST_RUN : CompareStyle
  | BEST_SEGMENTS : CompareStyle
  | WORST_RUN : CompareStyle
  | WORST_SEGMENTS : CompareStyle
  | LAST_RUN : CompareStyle
  | AVERAGE_SEGMENTS : CompareStyle
  | BALANCED_BEST : CompareStyle
deriving DecidableEq, Repr

/-- TimeSet.make_compare_times from TimeSet.py lines 420-453: dispatch on the
compare style; an empty store yields the null baseline pair for every style. -/
def TimeSet.make_compare_times (s : TimeSet) (compare_style : CompareStyle) :
    CompareTime × CompareTime :=
  if s.runs.length = 0 then (⟨none⟩, ⟨none⟩)
  else
    match compare_style with
    | CompareStyle.BEST_RUN => s.make_compare_times_from_run s.best_run_index
    | CompareStyle.WORST_RUN =>
      s.make_compare_times_from_run (s.extreme_run_index false)
    | CompareStyle.LAST_RUN => s.make_compare_times_from_run (s.runs.length - 1)
    | CompareStyle.BEST_SEGMENTS =>
      TimeSet.make_compare_times_from_segment_times s.best_times
    | CompareStyle.AVERAGE_SEGMENTS =>
      TimeSet.make_compare_times_from_segment_times s.average_times
    | CompareStyle.WORST_SEGMENTS =>
      TimeSet.make_compare_times_from_segment_times s.worst_times
    | CompareStyle.BALANCED_BEST => s.make_balanced_best_compare_times
    | CompareStyle.NONE => (⟨none⟩, ⟨none⟩)

/-- Error outcomes of the embedded Python code. -/
inductive PyError : Type
  | indexError : PyError
  | valueError : PyError
deriving DecidableEq, Repr

/-- Element lookup of the add_row loop: segment_times[j] raises IndexError when
j is out of range. -/
def getSegmentTime (segment_times : List F) (j : ℕ) : Except PyError F :=
  match segment_times.get? j with
  | some v => Except.ok v
  | none => Except.error PyError.indexError

/-- The column loop of TimeSet.add_row: walks the segment columns in order,
reading segment_times[0], segment_times[1], ... and fails with IndexError at the
first missing index.  Entries of segment_times beyond the number of segment
columns are never read. -/
def buildRowAux (segs : List ℕ) (segment_times : List F) (j : ℕ) :
    Except PyError (List F) :=
  match segs with
  | [] => Except.ok []
  | _ :: rest =>
    match getSegmentTime segment_times j with
    | Except.error e => Except.error e
    | Except.ok v =>
      match buildRowAux rest segment_times (j + 1) with
      | Except.error e => Except.error e
      | Except.ok vs => Except.ok (v :: vs)

/-- TimeSet.add_row from TimeSet.py lines 347-367: builds the new row by
iterating over the columns of the frame (reading segment_times positionally)
and only then concatenates it onto the table, so a failure while building the
row leaves the stored data untouched.  No length validation is performed. -/
def TimeSet.add_row (s : TimeSet) (date : ℕ) (segment_times : List F) :
    Except PyError TimeSet :=
  match buildRowAux s.segments segment_times 0 with
  | Except.error e => Except.error e
  | Except.ok row =>
    Except.ok
      { s with dates := s.dates ++ [date], runs := s.runs ++ [row] }

/-- TimeSet equality from TimeSet.py lines 45-61: equal min_best, equal segment
lists, equal frame shapes, and np.all of the elementwise == of the two frames,
where the float entries are compared with IEEE equality (so any NaN entry makes
the elementwise test false) and the date entries compare as ordinary values. -/
def TimeSet.eqb (a b : TimeSet) : Bool :=
  (a.min_best == b.min_best) &&
  (a.segments == b.segments) &&
  (a.runs.length == b.runs.length) &&
  (a.dates == b.dates) &&
  ((a.runs.zip b.runs).all fun p => (p.1.zip p.2).all fun q => feq q.1 q.2)

/- ------------------------------------------------------------------ -/
/- Embedding of the finalization of cubetime/core/Timer.py            -/
/- ------------------------------------------------------------------ -/

/-- The result vector built in Timer.time, Timer.py lines 176-178: a length-N
NaN vector whose first len(unix_times)-1 entries are overwritten with the
recorded end timestamps, then the start timestamp is subtracted from every
entry (leaving the NaN padding NaN). -/
def finalTimesVector (n : ℕ) (unix_times : List F) : List F :=
  let shifted : List F :=
    unix_times.tail ++ List.replicate (n - (unix_times.length - 1)) none
  (shifted.take n).map (fun x => fsub x (unix_times.headD none))

/-- Finalization branch of Timer.time, Timer.py lines 176-189.  The first
component records whether the confirmation prompt was shown; the second is the
value returned (none models the Python None, meaning the run is discarded).
The confirm argument is the answer the user would give if prompted. -/
def Timer.time_finalize (n : ℕ) (unix_times : List F) (confirm : Bool) :
    Bool × Option (List F) :=
  let final_times : List F := finalTimesVector n unix_times
  if final_times.all Option.isNone then (false, none)
  else if confirm then (true, some final_times)
  else (true, none)

/- ------------------------------------------------------------------ -/
/- Spec-side definitions for the store claims                         -/
/- ------------------------------------------------------------------ -/

/-- Balanced-best standalone vector written from the words of claim C3, at the
level of exact numbers: the per-segment best vector with the quantity
sum(best_run minus best_segments) / N added to every entry. -/
def balancedSpecC3 (bs br : List ℚ) (n : ℕ) : List ℚ :=
  bs.map (fun b => b + (br.sum - bs.sum) / (n : ℚ))

/-- Sum of the non-missing values of a table, written from the words of claims
C7: missing entries are ignored rather than poisoning the sum. -/
def nonMissingSum (runs : List (List F)) : ℚ :=
  (runs.flatten.filterMap id).sum

/- ------------------------------------------------------------------ -/
/- Concrete stores used as witnesses and counterexamples              -/
/- ------------------------------------------------------------------ -/

/-- The four-run four-segment fixture of the repository test suite
(test/test_time_set.py, time_set_for_compares). -/
def fixtureStore : TimeSet :=
  { segments := [1, 2, 3, 4]
    dates := [10, 20, 30, 40]
    runs :=
      [ [some 10, some 20, some 30, some 40]
      , [some 15, some 15, some 10, some 30]
      , [some 1, some 60, some 60, some 20]
      , [some 60, some 1, some 60, some 10] ]
    min_best := true }

/-- A store holding one finished run and one later run aborted after its first
segment (the second segment is missing, so its final cumulative time is NaN). -/
def storeWithUnfinishedRun : TimeSet :=
  { segments := [1, 2]
    dates := [0, 1]
    runs := [[some 1, some 1], [some 2, none]]
    min_best := true }

/-- A store whose first run (the one numpy argmin selects, since its final
cumulative time is NaN) has a missing segment, while the second run finished. -/
def storeWithUnfinishedFirstRun : TimeSet :=
  { segments := [1, 2]
    dates := [0, 1]
    runs := [[some 2, none], [some 1, some 1]]
    min_best := true }

/-- A store with a single one-segment run whose only entry is missing. -/
def storeWithNaNEntry : TimeSet :=
  { segments := [1]
    dates := [0]
    runs := [[none]]
    min_best := true }

/-- A store with a single run whose second segment is missing. -/
def storeWithPartialRun : TimeSet :=
  { segments := [1, 2]
    dates := [0]
    runs := [[some 1, none]]
    min_best := true }

/-- A store with a single one-segment run whose only entry is present. -/
def storeWithOneEntry : TimeSet :=
  { segments := [1]
    dates := [0]
    runs := [[some 1]]
    min_best := true }

/-- An empty two-segment store. -/
def emptyTwoSegmentStore : TimeSet :=
  { segments := [1, 2]
    dates := []
    runs := []
    min_best := true }

/- ------------------------------------------------------------------ -/
/- Arithmetic lemmas about the float model                            -/
/- ------------------------------------------------------------------ -/

theorem foldl_fadd_map_some (ys : List ℚ) :
    ∀ a : ℚ, List.foldl fadd (some a) (ys.map some) = some (a + ys.sum) := by
  induction ys with
  | nil => intro a; simp
  | cons y ys ih =>
    intro a
    simp only [List.map_cons, List.foldl_cons, fadd, List.sum_cons]
    rw [ih (a + y)]
    ring_nf

theorem foldl_fadd_none (xs : List F) : List.foldl fadd none xs = none := by
  induction xs with
  | nil => rfl
  | cons x xs ih =>
    simp only [List.foldl_cons]
    have : fadd none x = none := by cases x <;> rfl
    rw [this, ih]

theorem foldl_fadd_of_mem_none (xs : List F) :
    ∀ acc : F, none ∈ xs → List.foldl fadd acc xs = none := by
  induction xs with
  | nil => intro acc h; simp at h
  | cons x xs ih =>
    intro acc h
    rcases List.mem_cons.mp h with h1 | h1
    · subst h1
      simp only [List.foldl_cons]
      have : fadd acc none = none := by cases acc <;> rfl
      rw [this, foldl_fadd_none]
    · simp only [List.foldl_cons]
      exact ih _ h1

theorem fsum_map_some (ys : List ℚ) : fsum (ys.map some) = some ys.sum := by
  unfold fsum
  rw [foldl_fadd_map_some ys 0, zero_add]

theorem fsum_of_mem_none (xs : List F) (h : none ∈ xs) : fsum xs = none :=
  foldl_fadd_of_mem_none xs _ h

theorem foldl_fadd_split (xs : List F) :
    ∀ a : ℚ,
      List.foldl fadd (some a) xs =
        if xs.all Option.isSome then some (a + (xs.filterMap id).sum) else none := by
  induction xs with
  | nil => intro a; simp
  | cons x xs ih =>
    intro a
    cases x with
    | none =>
      simp only [List.all_cons, Option.isSome_none, Bool.false_and, if_neg,
        Bool.false_eq_true, not_false_iff]
      simp only [List.foldl_cons]
      have : fadd (some a) none = none := rfl
      rw [this, foldl_fadd_none]
    | some q =>
      simp only [List.all_cons, Option.isSome_some, Bool.true_and,
        List.foldl_cons, List.filterMap_cons]
      have : fadd (some a) (some q) = some (a + q) := rfl
      rw [this, ih (a + q)]
      by_cases hall : xs.all Option.isSome
      · simp only [hall, if_pos, id]
        simp only [List.sum_cons]
        ring_nf
      · simp only [hall]
        simp

theorem fsum_split (xs : List F) :
    fsum xs =
      if xs.all Option.isSome then some ((xs.filterMap id).sum) else none := by
  unfold fsum
  rw [foldl_fadd_split xs 0]
  by_cases h : xs.all Option.isSome <;> simp [h]

theorem cumsumFrom_getLastD (xs : List F) :
    ∀ (a d : F), xs ≠ [] → (cumsumFrom a xs).getLastD d = xs.foldl fadd a := by
  induction xs with
  | nil => intro a d h; exact absurd rfl h
  | cons x xs ih =>
    intro a d _
    cases xs with
    | nil => simp [cumsumFrom]
    | cons y ys =>
      have h1 : cumsumFrom a (x :: y :: ys)
          = fadd a x :: cumsumFrom (fadd a x) (y :: ys) := rfl
      rw [h1, List.getLastD_cons, List.foldl_cons]
      exact ih (fadd a x) (fadd a x) (by simp)

theorem finalTime_map_some (ys : List ℚ) (h : ys ≠ []) :
    finalTime (ys.map some) = some ys.sum := by
  unfold finalTime np_cumsum
  rw [cumsumFrom_getLastD _ _ _ (by simpa using h)]
  exact fsum_map_some ys

theorem zipWith_fsub_map_some (as : List ℚ) :
    ∀ bs : List ℚ,
      List.zipWith fsub (as.map some) (bs.map some) =
        (List.zipWith (fun a b => a - b) as bs).map some := by
  induction as with
  | nil => intro bs; simp
  | cons a as ih =>
    intro bs
    cases bs with
    | nil => simp
    | cons b bs =>
      simp only [List.map_cons, List.zipWith_cons_cons]
      rw [ih bs]
      rfl

theorem sum_zipWith_sub (as : List ℚ) :
    ∀ bs : List ℚ, as.length = bs.length →
      (List.zipWith (fun a b => a - b) as bs).sum = as.sum - bs.sum := by
  induction as with
  | nil =>
    intro bs h
    cases bs with
    | nil => simp
    | cons b bs => simp at h
  | cons a as ih =>
    intro bs h
    cases bs with
    | nil => simp at h
    | cons b bs =>
      simp only [List.zipWith_cons_cons, List.sum_cons]
      rw [ih bs (by simpa using h)]
      ring

theorem sum_map_add_const (bs : List ℚ) (c : ℚ) :
    (bs.map (fun b => b + c)).sum = bs.sum + bs.length * c := by
  induction bs with
  | nil => simp
  | cons b bs ih =>
    simp only [List.map_cons, List.sum_cons, List.length_cons, ih]
    push_cast
    ring

/- ------------------------------------------------------------------ -/
/- Structural lemmas about the index scans and column reductions      -/
/- ------------------------------------------------------------------ -/

theorem scanExtremeIdx_lt (step : F → F → Bool) (xs : List F) :
    ∀ (best : F) (bestIdx i : ℕ), bestIdx < i →
      scanExtremeIdx step best bestIdx i xs < i + xs.length := by
  induction xs with
  | nil =>
    intro best bestIdx i h
    simpa [scanExtremeIdx] using Nat.lt_of_lt_of_le h (Nat.le_add_right i 0)
  | cons x xs ih =>
    intro best bestIdx i h
    simp only [scanExtremeIdx, List.length_cons]
    by_cases hs : step best x = true
    · rw [if_pos hs]
      have := ih x i (i + 1) (Nat.lt_succ_self i)
      omega
    · rw [if_neg hs]
      have := ih best bestIdx (i + 1) (Nat.lt_succ_of_lt h)
      omega

theorem np_argmin_lt (xs : List F) (h : xs ≠ []) : np_argmin xs < xs.length := by
  cases xs with
  | nil => exact absurd rfl h
  | cons x rest =>
    simp only [np_argmin, List.length_cons]
    have := scanExtremeIdx_lt argminStep rest x 0 1 Nat.zero_lt_one
    omega

theorem np_argmax_lt (xs : List F) (h : xs ≠ []) : np_argmax xs < xs.length := by
  cases xs with
  | nil => exact absurd rfl h
  | cons x rest =>
    simp only [np_argmax, List.length_cons]
    have := scanExtremeIdx_lt argmaxStep rest x 0 1 Nat.zero_lt_one
    omega

theorem extreme_run_index_lt (s : TimeSet) (b : Bool) (h : s.runs ≠ []) :
    s.extreme_run_index b < s.runs.length := by
  unfold TimeSet.extreme_run_index
  by_cases hb : (s.min_best == b) = true
  · rw [if_pos hb]
    have := np_argmin_lt (s.runs.map finalTime) (by simpa using h)
    simpa using this
  · rw [if_neg hb]
    have := np_argmax_lt (s.runs.map finalTime) (by simpa using h)
    simpa using this

theorem foldl_extStep_isSome (u : Bool) (xs : List F) :
    ∀ acc : F, acc.isSome → (List.foldl (extStep u) acc xs).isSome := by
  induction xs with
  | nil => intro acc h; simpa using h
  | cons x xs ih =>
    intro acc h
    simp only [List.foldl_cons]
    apply ih
    cases acc with
    | none => simp at h
    | some a => cases x <;> simp [extStep]

theorem colExtreme_isSome_of_mem (u : Bool) (xs : List F) :
    ∀ x ∈ xs, x.isSome → (colExtreme u xs).isSome := by
  unfold colExtreme
  have key : ∀ (l : List F) (acc : F),
      (∃ x ∈ l, x.isSome) ∨ acc.isSome →
        (List.foldl (extStep u) acc l).isSome := by
    intro l
    induction l with
    | nil =>
      intro acc h
      rcases h with ⟨x, hx, _⟩ | h
      · simp at hx
      · simpa using h
    | cons y ys ih =>
      intro acc h
      simp only [List.foldl_cons]
      rcases h with ⟨x, hx, hs⟩ | h
      · rcases List.mem_cons.mp hx with h1 | h1
        · subst h1
          apply ih
          right
          cases acc with
          | none => simpa [extStep] using hs
          | some a => cases x <;> simp [extStep]
        · exact ih _ (Or.inl ⟨x, h1, hs⟩)
      · apply ih
        right
        cases acc with
        | none => simp at h
        | some a => cases y <;> simp [extStep]
  intro x hx hs
  exact key xs none (Or.inl ⟨x, hx, hs⟩)

theorem allSome_eq_map (xs : List F) (h : ∀ x ∈ xs, x.isSome) :
    ∃ ys : List ℚ, xs = ys.map some := by
  induction xs with
  | nil => exact ⟨[], rfl⟩
  | cons x xs ih =>
    obtain ⟨ys, hys⟩ := ih (fun y hy => h y (List.mem_cons_of_mem x hy))
    cases x with
    | none => simpa using h none (List.mem_cons_self _ _)
    | some q => exact ⟨q :: ys, by simp [hys]⟩

theorem none_mem_zipWith_fsub_left (as : List F) :
    ∀ bs : List F, as.length = bs.length → none ∈ as →
      none ∈ List.zipWith fsub as bs := by
  induction as with
  | nil => intro bs _ h; simp at h
  | cons a as ih =>
    intro bs hlen h
    cases bs with
    | nil => simp at hlen
    | cons b bs =>
      simp only [List.zipWith_cons_cons]
      rcases List.mem_cons.mp h with h1 | h1
      · subst h1
        have : fsub none b = none := by cases b <;> rfl
        rw [this]
        exact List.mem_cons_self _ _
      · exact List.mem_cons_of_mem _ (ih bs (by simpa using hlen) h1)

theorem getD_map_some_isSome (ys : List ℚ) :
    ∀ j : ℕ, j < ys.length → ((ys.map some).getD j none).isSome := by
  induction ys with
  | nil => intro j h; simp at h
  | cons y ys ih =>
    intro j h
    cases j with
    | zero => simp
    | succ j => simpa using ih j (by simpa using h)

theorem compare_some (d : List F) (i : ℕ) (v : F) (mb : Bool) :
    CompareTime.compare ⟨some d⟩ i v mb
      = classifyAmendedC2 (d.getD i none) v mb := by
  show (match fsub v (d.getD i none) with
        | none => (⟨CompareResultDiscrete.EQUAL, none⟩ : CompareResult)
        | some diff =>
          if diff = 0 then ⟨CompareResultDiscrete.EQUAL, some diff⟩
          else if (decide (diff < 0)) == mb then
            ⟨CompareResultDiscrete.BETTER, some diff⟩
          else ⟨CompareResultDiscrete.WORSE, some diff⟩)
      = classifyAmendedC2 (d.getD i none) v mb
  rcases he : d.getD i none with _ | b <;> rcases hv : v with _ | x <;> rfl

/- ------------------------------------------------------------------ -/
/- Claim C1                                                           -/
/- ------------------------------------------------------------------ -/

/-- C1: for every segment report, the color is determined by the two
classifications: a best-ever classification of BETTER forces the distinguished
gold/record color regardless of the live classification, and otherwise the live
classification BETTER, WORSE, EQUAL maps to green, red, white respectively. -/
theorem claim_C1_color_rule (current best : CompareResult) :
    comparison_color current best = colorSpecC1 current best := by
  obtain ⟨cd, cc⟩ := current
  obtain ⟨bd, bc⟩ := best
  cases cd <;> cases bd <;> rfl

/- ------------------------------------------------------------------ -/
/- Claim C2                                                           -/
/- ------------------------------------------------------------------ -/

/-- C2 counterexample: with a non-null baseline whose entry at the index is NaN
and an ordinary live value, the code returns EQUAL with NaN delta, while the
claim as stated forms delta = value - baseline[index] (NaN) and, since a NaN
delta is neither equal to zero nor less than zero, classifies BETTER for
min_better = false: the claim as stated is false at this input. -/
theorem claim_C2_counterexample :
    CompareTime.compare ⟨some [none]⟩ 0 (some 1) false
        = ⟨CompareResultDiscrete.EQUAL, none⟩ ∧
      compareClaimC2 (some [none]) 0 (some 1) false
        = ⟨CompareResultDiscrete.BETTER, none⟩ ∧
      CompareTime.compare ⟨some [none]⟩ 0 (some 1) false
        ≠ compareClaimC2 (some [none]) 0 (some 1) false := by
  refine ⟨by decide, by decide, by decide⟩

/-- C2 as amended: compare returns EQUAL with NaN delta when the baseline is
null, when the live value is NaN, and also when the baseline entry at the index
is NaN; otherwise delta = value - baseline[index] is an ordinary number and
compare returns EQUAL if delta is zero, BETTER exactly when (delta < 0) equals
min_better, and WORSE otherwise. -/
theorem claim_C2_amended (d : List F) (segment_index : ℕ) (value : F)
    (min_better : Bool) (_h : segment_index < d.length) :
    CompareTime.compare ⟨none⟩ segment_index value min_better
        = ⟨CompareResultDiscrete.EQUAL, none⟩ ∧
      CompareTime.compare ⟨some d⟩ segment_index value min_better
        = classifyAmendedC2 (d.getD segment_index none) value min_better := by
  exact ⟨rfl, compare_some d segment_index value min_better⟩

/-- Witness for the amended C2 at a concrete in-range input. -/
theorem claim_C2_amended_witness :
    CompareTime.compare ⟨some [some 3]⟩ 0 (some 5) true
      = classifyAmendedC2 (([some 3] : List F).getD 0 none) (some 5) true :=
  (claim_C2_amended [some 3] 0 (some 5) true (by decide)).2

/- ------------------------------------------------------------------ -/
/- Claim C10                                                          -/
/- ------------------------------------------------------------------ -/

/-- C10: for a non-null baseline, an in-range index and a non-NaN live value,
a NaN baseline entry at that index makes compare return EQUAL with NaN delta,
rather than an error or a BETTER/WORSE classification. -/
theorem claim_C10_missing_baseline_entry (d : List F) (segment_index : ℕ)
    (value : F) (min_better : Bool) (_h : segment_index < d.length)
    (hbase : d.getD segment_index none = none) (hval : value.isSome) :
    CompareTime.compare ⟨some d⟩ segment_index value min_better
      = ⟨CompareResultDiscrete.EQUAL, none⟩ := by
  rw [compare_some, hbase]
  obtain ⟨x, hx⟩ := Option.isSome_iff_exists.mp hval
  rw [hx]
  rfl

/-- Witness for C10 at a concrete input. -/
theorem claim_C10_witness :
    CompareTime.compare ⟨some [none]⟩ 0 (some 2) true
      = ⟨CompareResultDiscrete.EQUAL, none⟩ :=
  claim_C10_missing_baseline_entry [none] 0 (some 2) true (by decide) (by decide)
    (by decide)

/- ------------------------------------------------------------------ -/
/- Claim C4                                                           -/
/- ------------------------------------------------------------------ -/

/-- C4 evaluation at the failing input: in a store holding one finished run
(final cumulative time 2) and one run whose final segment is missing,
extreme_run_index(best=True) returns index 1, the run whose final cumulative
value is NaN, because np.argmin propagates NaN; the claim says such runs are
excluded, so index 0 would have to be returned. -/
theorem claim_C4_code_eval :
    storeWithUnfinishedRun.extreme_run_index true = 1 ∧
      finalTime (storeWithUnfinishedRun.runs.getD 1 []) = none ∧
      finalTime (storeWithUnfinishedRun.runs.getD 0 []) = some 2 := by
  refine ⟨by decide, by decide, ?_⟩
  norm_num [finalTime, np_cumsum, cumsumFrom, fadd, storeWithUnfinishedRun]

/- ------------------------------------------------------------------ -/
/- Claim C6                                                           -/
/- ------------------------------------------------------------------ -/

/-- C6 evaluation at the failing input: a store whose single run has a missing
entry is not equal to the exact copy of itself under the implemented equality,
because the elementwise numpy == on which it relies is false at NaN positions;
an otherwise identical store without the missing entry is equal to itself,
isolating the NaN entry as the cause.  The claim says every store equals an
exact copy of itself. -/
theorem claim_C6_code_eval :
    TimeSet.eqb storeWithNaNEntry storeWithNaNEntry = false ∧
      TimeSet.eqb storeWithOneEntry storeWithOneEntry = true := by
  refine ⟨by decide, by decide⟩

/- ------------------------------------------------------------------ -/
/- Claim C7                                                           -/
/- ------------------------------------------------------------------ -/

/-- C7 counterexample: on a store whose single run is [1, NaN], the sum of the
non-missing standalone values is 1, but total_time_spent is NaN, because the
source uses np.sum, which propagates missing values, rather than a
missing-value-ignoring sum. -/
theorem claim_C7_counterexample :
    storeWithPartialRun.total_time_spent = none ∧
      nonMissingSum storeWithPartialRun.runs = 1 ∧
      storeWithPartialRun.total_time_spent
        ≠ some (nonMissingSum storeWithPartialRun.runs) := by
  refine ⟨by decide, ?_, by decide⟩
  norm_num [nonMissingSum, storeWithPartialRun, List.filterMap_cons, id]

/-- C7 as amended: total_time_spent is the plain np.sum of all standalone
values, so it equals the sum of the non-missing values exactly when no value is
missing, and is NaN as soon as any entry is missing. -/
theorem claim_C7_amended (s : TimeSet) :
    s.total_time_spent =
      if s.runs.flatten.all Option.isSome then some (nonMissingSum s.runs)
      else none := by
  unfold TimeSet.total_time_spent nonMissingSum
  exact fsum_split _

/- ------------------------------------------------------------------ -/
/- Claim C9                                                           -/
/- ------------------------------------------------------------------ -/

/-- C9: at finalization the result vector has length N; if every entry is NaN
the run is discarded unconditionally, with no confirmation prompt shown and
nothing returned for storage; otherwise the confirmation prompt is shown, an
affirmative answer hands the vector back, and a declined confirmation discards
the run, returning nothing, without an error. -/
theorem claim_C9_finalization (n : ℕ) (unix_times : List F) (confirm : Bool) :
    (finalTimesVector n unix_times).length = n ∧
      ((∀ x ∈ finalTimesVector n unix_times, x = none) →
        Timer.time_finalize n unix_times confirm = (false, none)) ∧
      ((∃ x ∈ finalTimesVector n unix_times, x ≠ none) →
        Timer.time_finalize n unix_times confirm =
          (true, if confirm then some (finalTimesVector n unix_times) else none)) := by
  refine ⟨?_, ?_, ?_⟩
  · unfold finalTimesVector
    simp only [List.length_map, List.length_take, List.length_append,
      List.length_tail, List.length_replicate]
    omega
  · intro h
    unfold Timer.time_finalize
    have hall : (finalTimesVector n unix_times).all Option.isNone = true := by
      rw [List.all_eq_true]
      intro x hx
      rw [Option.isNone_iff_eq_none]
      exact h x hx
    rw [if_pos hall]
  · intro h
    obtain ⟨x, hx, hxne⟩ := h
    unfold Timer.time_finalize
    have hnall : ¬ ((finalTimesVector n unix_times).all Option.isNone = true) := by
      rw [List.all_eq_true]
      intro hall
      exact hxne (Option.isNone_iff_eq_none.mp (hall x hx))
    rw [if_neg hnall]
    cases confirm <;> rfl

/-- Witness for C9 at concrete inputs: a session where the only recorded end
timestamps are skips produces an all-NaN vector and is discarded without the
prompt; a session that finished its first of two segments before aborting shows
the prompt and, on confirmation, hands back the NaN-padded vector. -/
theorem claim_C9_witness :
    Timer.time_finalize 2 [some 0, none, none] true = (false, none) ∧
      Timer.time_finalize 2 [some 0, some 5, none] true
        = (true, some [some 5, none]) := by
  constructor
  · exact (claim_C9_finalization 2 [some 0, none, none] true).2.1 (by decide)
  · have h := (claim_C9_finalization 2 [some 0, some 5, none] true).2.2
      (by decide)
    rw [h]
    norm_num [finalTimesVector, fsub]

/- ------------------------------------------------------------------ -/
/- Claim C5                                                           -/
/- ------------------------------------------------------------------ -/

theorem buildRowAux_ok (segs : List ℕ) :
    ∀ (ts : List F) (j : ℕ), j + segs.length ≤ ts.length →
      buildRowAux segs ts j = Except.ok ((ts.drop j).take segs.length) := by
  induction segs with
  | nil => intro ts j _; simp [buildRowAux]
  | cons sg segs ih =>
    intro ts j h
    have hj : j < ts.length := by
      simp only [List.length_cons] at h
      omega
    have hg : getSegmentTime ts j = Except.ok ts[j] := by
      unfold getSegmentTime
      rw [List.get?_eq_getElem?, List.getElem?_eq_getElem hj]
    simp only [buildRowAux, hg]
    rw [ih ts (j + 1) (by simp only [List.length_cons] at h; omega)]
    have hd : ts.drop j = ts[j] :: ts.drop (j + 1) :=
      List.drop_eq_getElem_cons hj
    rw [hd]
    simp only [List.length_cons, List.take_succ_cons]

theorem buildRowAux_err (segs : List ℕ) :
    ∀ (ts : List F) (j : ℕ), segs ≠ [] → ts.length < j + segs.length →
      buildRowAux segs ts j = Except.error PyError.indexError := by
  induction segs with
  | nil => intro ts j hne _; exact absurd rfl hne
  | cons sg segs ih =>
    intro ts j _ h
    simp only [List.length_cons] at h
    by_cases hj : j < ts.length
    · have hg : getSegmentTime ts j = Except.ok ts[j] := by
        unfold getSegmentTime
        rw [List.get?_eq_getElem?, List.getElem?_eq_getElem hj]
      have hsegs : segs ≠ [] := by
        rcases segs with _ | ⟨a, l⟩
        · simp at h
          omega
        · simp
      simp only [buildRowAux, hg]
      rw [ih ts (j + 1) hsegs (by omega)]
    · have hg : getSegmentTime ts j = Except.error PyError.indexError := by
        unfold getSegmentTime
        rw [List.get?_eq_getElem?, List.getElem?_eq_none (by omega)]
      simp only [buildRowAux, hg]

/-- C5 counterexample: appending a length-3 vector to a two-segment store is
not rejected at all: the append succeeds, the first two entries become the new
run and the run data changes, where the claim requires a synchronous
ValueError-class rejection leaving the data unchanged. -/
theorem claim_C5_counterexample :
    emptyTwoSegmentStore.add_row 0 [some 1, some 2, some 3]
        = Except.ok
            { segments := [1, 2], dates := [0],
              runs := [[some 1, some 2]], min_best := true } ∧
      ([some 1, some 2, some 3] : List F).length
        ≠ emptyTwoSegmentStore.segments.length := by
  refine ⟨rfl, by decide⟩

/-- C5 as amended: appending a vector with fewer entries than there are
segments fails with an IndexError-class error (not a ValueError) raised
synchronously while reading the missing entry, and the stored run data is
unchanged because the failure happens before the table is replaced; a vector
with at least as many entries as segments is not rejected: the append succeeds
and stores the first N entries of the vector. -/
theorem claim_C5_amended (s : TimeSet) (date : ℕ) (ts : List F) :
    (ts.length < s.segments.length →
        s.add_row date ts = Except.error PyError.indexError) ∧
      (s.segments.length ≤ ts.length →
        s.add_row date ts =
          Except.ok
            { s with dates := s.dates ++ [date],
                     runs := s.runs ++ [ts.take s.segments.length] }) := by
  constructor
  · intro h
    have hne : s.segments ≠ [] := by
      rcases hs : s.segments with _ | ⟨a, l⟩
      · rw [hs] at h
        simp at h
      · simp
    unfold TimeSet.add_row
    rw [buildRowAux_err s.segments ts 0 hne (by omega)]
  · intro h
    unfold TimeSet.add_row
    rw [buildRowAux_ok s.segments ts 0 (by omega)]
    simp

/-- Witness for the amended C5 at concrete inputs, one per branch. -/
theorem claim_C5_amended_witness :
    emptyTwoSegmentStore.add_row 0 [some 1]
        = Except.error PyError.indexError ∧
      emptyTwoSegmentStore.add_row 0 [some 1, some 2]
        = Except.ok
            { segments := [1, 2], dates := [0],
              runs := [[some 1, some 2]], min_best := true } := by
  constructor
  · exact (claim_C5_amended emptyTwoSegmentStore 0 [some 1]).1 (by decide)
  · have h := (claim_C5_amended emptyTwoSegmentStore 0 [some 1, some 2]).2
      (by decide)
    rw [h]
    rfl

/- ------------------------------------------------------------------ -/
/- Claim C8                                                           -/
/- ------------------------------------------------------------------ -/

theorem best_run_times_mem (s : TimeSet) (hne : s.runs ≠ []) :
    s.best_run_times ∈ s.runs := by
  unfold TimeSet.best_run_times TimeSet.best_run_index
  have hidx : s.extreme_run_index true < s.runs.length :=
    extreme_run_index_lt s true hne
  rw [List.getD_eq_getElem?_getD, List.getElem?_eq_getElem hidx]
  exact List.getElem_mem hidx

theorem best_times_length (s : TimeSet) :
    s.best_times.length = s.segments.length := by
  simp [TimeSet.best_times]

theorem balanced_best_data (s : TimeSet) (hne : s.runs ≠ []) :
    (s.make_compare_times CompareStyle.BALANCED_BEST).1.data
      = some
          (s.best_times.map
            (fun b =>
              fadd b
                (fdiv (fsum (List.zipWith fsub s.best_run_times s.best_times))
                  (some (s.segments.length : ℚ))))) := by
  have hlen0 : ¬ s.runs.length = 0 := by
    simpa [List.length_eq_zero] using hne
  unfold TimeSet.make_compare_times
  rw [if_neg hlen0]
  rfl

/-- C8 counterexample: on a non-empty store whose selected best run has a
missing segment, requesting the BALANCED_BEST compare times raises nothing and
returns a baseline both of whose entries are NaN; the claim says a domain error
must be raised and that the result is never silently coerced into a NaN-valued
baseline. -/
theorem claim_C8_counterexample :
    none ∈ storeWithUnfinishedFirstRun.best_run_times ∧
      storeWithUnfinishedFirstRun.runs ≠ [] ∧
      (storeWithUnfinishedFirstRun.make_compare_times
          CompareStyle.BALANCED_BEST).1
        = ⟨some [none, none]⟩ := by
  refine ⟨by decide, by decide, by decide⟩

/-- C8 as amended: on every well-formed non-empty store whose best-final-time
run has at least one missing segment, the BALANCED_BEST request does not fail;
it silently yields a standalone baseline of the full segment length all of
whose entries are NaN, because the missing segment poisons the summed time
saves and the NaN per-segment correction is added to every entry. -/
theorem claim_C8_amended (s : TimeSet) (hWF : s.WF) (hne : s.runs ≠ [])
    (hnan : none ∈ s.best_run_times) :
    ∃ l : List F,
      (s.make_compare_times CompareStyle.BALANCED_BEST).1.data = some l ∧
        l.length = s.segments.length ∧ ∀ x ∈ l, x = none := by
  have hbrlen : s.best_run_times.length = s.segments.length :=
    hWF.2.2 _ (best_run_times_mem s hne)
  have hts : none ∈ List.zipWith fsub s.best_run_times s.best_times :=
    none_mem_zipWith_fsub_left _ _ (by rw [hbrlen, best_times_length]) hnan
  have hper :
      fdiv (fsum (List.zipWith fsub s.best_run_times s.best_times))
          (some (s.segments.length : ℚ)) = none := by
    rw [fsum_of_mem_none _ hts]
    rfl
  refine ⟨_, balanced_best_data s hne, ?_, ?_⟩
  · rw [List.length_map, best_times_length]
  · intro x hx
    rcases List.mem_map.mp hx with ⟨b, _, hxe⟩
    rw [← hxe, hper]
    cases b <;> rfl

/-- Witness for the amended C8 at a concrete store. -/
theorem claim_C8_amended_witness :
    storeWithUnfinishedFirstRun.WF ∧
      none ∈ storeWithUnfinishedFirstRun.best_run_times ∧
      (∃ l : List F,
        (storeWithUnfinishedFirstRun.make_compare_times
              CompareStyle.BALANCED_BEST).1.data
            = some l ∧
          l.length = storeWithUnfinishedFirstRun.segments.length ∧
          ∀ x ∈ l, x = none) :=
  ⟨by decide, by decide,
    claim_C8_amended storeWithUnfinishedFirstRun (by decide) (by decide)
      (by decide)⟩

/- ------------------------------------------------------------------ -/
/- Claim C3                                                           -/
/- ------------------------------------------------------------------ -/

theorem best_times_allSome (s : TimeSet) (hWF : s.WF) (hne : s.runs ≠ [])
    (hbest : ∀ x ∈ s.best_run_times, x.isSome) :
    ∀ x ∈ s.best_times, x.isSome := by
  intro x hx
  unfold TimeSet.best_times at hx
  rcases List.mem_map.mp hx with ⟨j, hj, hxe⟩
  have hjlt : j < s.segments.length := List.mem_range.mp hj
  rw [← hxe]
  have hmem : s.best_run_times.getD j none ∈ s.column j :=
    List.mem_map_of_mem _ (best_run_times_mem s hne)
  apply colExtreme_isSome_of_mem s.min_best (s.column j) _ hmem
  obtain ⟨brQ, hbrQ⟩ := allSome_eq_map _ hbest
  have hlen : s.best_run_times.length = s.segments.length :=
    hWF.2.2 _ (best_run_times_mem s hne)
  rw [hbrQ]
  apply getD_map_some_isSome
  have h2 : brQ.length = s.segments.length := by
    rw [← hlen, hbrQ, List.length_map]
  omega

/-- C3: on every well-formed non-empty store whose best-final-time run (the run
selected by the implemented best_run_index) has no missing segments, the
BALANCED_BEST standalone baseline equals the per-segment best standalone vector
with sum(best_run minus best_segments) / N added to every entry, its entries
sum exactly (over the exact arithmetic of the model) to the sum of the best
runs standalone values, and that sum is exactly the best runs final cumulative
value. -/
theorem claim_C3_balanced_best (s : TimeSet) (hWF : s.WF) (hne : s.runs ≠ [])
    (brQ : List ℚ) (hbr : s.best_run_times = brQ.map some) :
    ∃ bsQ : List ℚ,
      s.best_times = bsQ.map some ∧
      (s.make_compare_times CompareStyle.BALANCED_BEST).1.data
          = some ((balancedSpecC3 bsQ brQ s.segments.length).map some) ∧
      (balancedSpecC3 bsQ brQ s.segments.length).sum = brQ.sum ∧
      finalTime s.best_run_times = some brQ.sum := by
  have hbest : ∀ x ∈ s.best_run_times, x.isSome := by
    intro x hx
    rw [hbr] at hx
    rcases List.mem_map.mp hx with ⟨q, _, hq⟩
    rw [← hq]
    rfl
  obtain ⟨bsQ, hbsQ⟩ := allSome_eq_map _ (best_times_allSome s hWF hne hbest)
  have hN : s.segments.length ≠ 0 := by
    rcases hs : s.segments with _ | ⟨a, l⟩
    · exact absurd hs hWF.1
    · simp
  have hbrlen : s.best_run_times.length = s.segments.length :=
    hWF.2.2 _ (best_run_times_mem s hne)
  have hbrQlen : brQ.length = s.segments.length := by
    rw [← hbrlen, hbr, List.length_map]
  have hbsQlen : bsQ.length = s.segments.length := by
    rw [← best_times_length s, hbsQ, List.length_map]
  have hsaves : List.zipWith fsub s.best_run_times s.best_times
      = (List.zipWith (fun a b => a - b) brQ bsQ).map some := by
    rw [hbr, hbsQ, zipWith_fsub_map_some]
  have hsum : fsum (List.zipWith fsub s.best_run_times s.best_times)
      = some (brQ.sum - bsQ.sum) := by
    rw [hsaves, fsum_map_some, sum_zipWith_sub brQ bsQ (by omega)]
  have hper : fdiv (fsum (List.zipWith fsub s.best_run_times s.best_times))
      (some (s.segments.length : ℚ))
      = some ((brQ.sum - bsQ.sum) / (s.segments.length : ℚ)) := by
    rw [hsum]
    rfl
  refine ⟨bsQ, hbsQ, ?_, ?_, ?_⟩
  · rw [balanced_best_data s hne, hper, hbsQ]
    simp only [balancedSpecC3, List.map_map]
    rfl
  · simp only [balancedSpecC3]
    rw [sum_map_add_const, hbsQlen]
    have hcast : (s.segments.length : ℚ) ≠ 0 := Nat.cast_ne_zero.mpr hN
    field_simp
  · have hbrne : brQ ≠ [] := by
      intro hnil
      rw [hnil] at hbrQlen
      simp at hbrQlen
      exact hN hbrQlen.symm
    rw [hbr, finalTime_map_some brQ hbrne]

/-- Witness for C3 at the four-run fixture of the repository test suite: the
best-final-time run is run 1 with standalone times [15, 15, 10, 30], which has
no missing segment. -/
theorem claim_C3_witness :
    fixtureStore.WF ∧
      fixtureStore.best_run_times = ([15, 15, 10, 30] : List ℚ).map some ∧
      (∃ bsQ : List ℚ,
        fixtureStore.best_times = bsQ.map some ∧
        (fixtureStore.make_compare_times CompareStyle.BALANCED_BEST).1.data
            = some ((balancedSpecC3 bsQ [15, 15, 10, 30]
                fixtureStore.segments.length).map some) ∧
        (balancedSpecC3 bsQ [15, 15, 10, 30] fixtureStore.segments.length).sum
            = ([15, 15, 10, 30] : List ℚ).sum ∧
        finalTime fixtureStore.best_run_times
            = some (([15, 15, 10, 30] : List ℚ).sum)) := by
  have hbr :
      fixtureStore.best_run_times = ([15, 15, 10, 30] : List ℚ).map some := by
    norm_num [fixtureStore, TimeSet.best_run_times, TimeSet.best_run_index,
      TimeSet.extreme_run_index, np_argmin, scanExtremeIdx, argminStep,
      finalTime, np_cumsum, cumsumFrom, fadd]
  exact ⟨by decide, hbr,
    claim_C3_balanced_best fixtureStore (by decide) (by decide)
      [15, 15, 10, 30] hbr⟩

/-- Sanity check against the expected values of the repository test suite: the
balanced-best standalone baseline of the fixture is [13, 13, 22, 22]. -/
theorem fixture_balanced_best_eval :
    (fixtureStore.make_compare_times CompareStyle.BALANCED_BEST).1.data
      = some (([13, 13, 22, 22] : List ℚ).map some) := by
  norm_num [fixtureStore, TimeSet.make_compare_times,
    TimeSet.make_balanced_best_compare_times,
    TimeSet.make_compare_times_from_segment_times,
    TimeSet.best_run_times, TimeSet.best_run_index, TimeSet.extreme_run_index,
    np_argmin, scanExtremeIdx, argminStep, finalTime, np_cumsum, cumsumFrom,
    TimeSet.best_times, TimeSet.column, colExtreme, extStep, List.range_succ,
    fadd, fsub, fdiv, fsum]
